import Mathlib

/-!
Verification of the core simulation of the SnakeCycle terminal game.

The definitions below are a shallow embedding of the simulation code in
src/snakeCycle.cpp (classes Position, Direction, Food, Snake, GameBoard, Game)
and, in namespace Portable, of the corresponding functions in the
cross-platform variant src/unnamed/part_000.  Terminal rendering and raw
keyboard handling are external I/O and are not modelled; the GameBoard
render-memory fields (borderDrawn, lastScore, lastHighScore, lastLength,
lastLevel, and wasPaused in the portable variant) affect terminal output only
and are therefore omitted.  The C standard library rand() stream is modelled
as an explicit stream of natural numbers consumed left to right, and the
rejection-sampling loop of Food::generateFood is given explicit fuel,
returning none when the fuel runs out.  C++ int arithmetic is modelled with
Int (the values involved stay far from the 32-bit boundaries).
-/

/-- The stream of values produced by successive rand() calls: an arbitrary
function from call index to a natural number, plus the index of the next
call. -/
structure Rng where
  stream : Nat → Nat
  idx : Nat

/-- One rand() call: the drawn value and the advanced stream. -/
def Rng.next (r : Rng) : Nat × Rng := (r.stream r.idx, ⟨r.stream, r.idx + 1⟩)

/-- struct Position, grid coordinates with value equality. -/
structure Position where
  x : Int
  y : Int
deriving DecidableEq

/-- enum Direction. -/
inductive Direction where
  | UP
  | DOWN
  | LEFT
  | RIGHT
  | STOP
deriving DecidableEq

/-- The head translation performed by the switch in Snake::move: the switch
has no case for STOP, so a STOP direction leaves the position unchanged
(that branch is unreachable because move returns early on STOP). -/
def Direction.translate (d : Direction) (p : Position) : Position :=
  match d with
  | .UP => { p with y := p.y - 1 }
  | .DOWN => { p with y := p.y + 1 }
  | .LEFT => { p with x := p.x - 1 }
  | .RIGHT => { p with x := p.x + 1 }
  | .STOP => p

/-- class Food: position, display symbol, color and score value. -/
structure Food where
  position : Position
  symbol : Char
  color : Int
  value : Int
deriving DecidableEq

/-- Food::Food(): position (0,0), symbol asterisk, color LIGHT_RED = 12,
value 10. -/
def Food.init : Food := { position := ⟨0, 0⟩, symbol := '*', color := 12, value := 10 }

/-- The do-while rejection sampling loop of Food::generateFood: draw
x = rand() % width and y = rand() % height until the position is outside the
snake body.  Each iteration consumes two rand() values; fuel bounds the
number of iterations and none is returned when it is exhausted (the C++ loop
would simply keep running). -/
def sampleFoodPos (width height : Int) (snakeBody : List Position) :
    Nat → Rng → Option (Position × Rng)
  | 0, _ => none
  | fuel + 1, r =>
    let (a, r1) := r.next
    let (b, r2) := r1.next
    let p : Position := ⟨(a : Int) % width, (b : Int) % height⟩
    if p ∈ snakeBody then sampleFoodPos width height snakeBody fuel r2
    else some (p, r2)

/-- Food::generateFood(width, height, snakeBody): rejection-sample a free
position, then draw the kind with one more rand() call: rand() % 10 == 0
gives the bonus food (symbol dollar, color LIGHT_YELLOW = 14, value 50),
otherwise the common food (symbol asterisk, color LIGHT_RED = 12,
value 10). -/
def Food.generateFood (f : Food) (width height : Int) (snakeBody : List Position)
    (fuel : Nat) (r : Rng) : Option (Food × Rng) :=
  match sampleFoodPos width height snakeBody fuel r with
  | none => none
  | some (p, r2) =>
    let (c, r3) := r2.next
    if c % 10 = 0 then
      some ({ f with position := p, symbol := '$', color := 14, value := 50 }, r3)
    else
      some ({ f with position := p, symbol := '*', color := 12, value := 10 }, r3)

/-- class Snake: body segments (head first), the previous frame's body kept
for diff rendering, current direction, and the pending-growth flag. -/
structure Snake where
  body : List Position
  previousBody : List Position
  direction : Direction
  growing : Bool
deriving DecidableEq

/-- Snake::Snake(): three horizontally aligned segments with head (10,10),
direction STOP, not growing. -/
def Snake.init : Snake :=
  { body := [⟨10, 10⟩, ⟨9, 10⟩, ⟨8, 10⟩]
  , previousBody := [⟨10, 10⟩, ⟨9, 10⟩, ⟨8, 10⟩]
  , direction := .STOP
  , growing := false }

/-- Snake::setDirection(dir): accept the requested direction unless it is the
exact opposite of the current one; a STOP current direction accepts
anything. -/
def Snake.setDirection (s : Snake) (dir : Direction) : Snake :=
  if (s.direction = .UP ∧ dir ≠ .DOWN) ∨
     (s.direction = .DOWN ∧ dir ≠ .UP) ∨
     (s.direction = .LEFT ∧ dir ≠ .RIGHT) ∨
     (s.direction = .RIGHT ∧ dir ≠ .LEFT) ∨
     s.direction = .STOP
  then { s with direction := dir }
  else s

/-- Snake::move(): return unchanged on STOP; otherwise snapshot the body into
previousBody, push the translated head at the front, and pop the tail unless
growing (in which case clear the flag).  body[0] on an empty body is
undefined behaviour in C++ and unreachable (the body is never empty); the
empty case returns the snake unchanged. -/
def Snake.move (s : Snake) : Snake :=
  if s.direction = .STOP then s
  else
    match s.body with
    | [] => s
    | h :: t =>
      let newHead := s.direction.translate h
      if !s.growing then
        { s with previousBody := h :: t, body := (newHead :: h :: t).dropLast }
      else
        { s with previousBody := h :: t, body := newHead :: h :: t, growing := false }

/-- Snake::grow(): mark pending growth. -/
def Snake.grow (s : Snake) : Snake := { s with growing := true }

/-- Snake::getHead(): body[0], or (0,0) on an empty body. -/
def Snake.getHead (s : Snake) : Position := s.body.headD ⟨0, 0⟩

/-- Snake::checkSelfCollision(): false for bodies of length at most one,
otherwise true iff the head equals some later segment. -/
def Snake.checkSelfCollision (s : Snake) : Bool :=
  if s.body.length ≤ 1 then false
  else
    match s.body with
    | [] => false
    | h :: t => decide (h ∈ t)

/-- Snake::getLength(). -/
def Snake.getLength (s : Snake) : Nat := s.body.length

/-- Snake::reset(): back to the three initial segments, STOP, not growing. -/
def Snake.reset (s : Snake) : Snake :=
  { s with body := [⟨10, 10⟩, ⟨9, 10⟩, ⟨8, 10⟩]
         , previousBody := [⟨10, 10⟩, ⟨9, 10⟩, ⟨8, 10⟩]
         , direction := .STOP
         , growing := false }

/-- class GameBoard: the playable rectangle.  The render-memory fields are
omitted (terminal output only). -/
structure GameBoard where
  width : Int
  height : Int
deriving DecidableEq

/-- GameBoard::GameBoard(): 30 by 20 by default. -/
def GameBoard.init : GameBoard := ⟨30, 20⟩

/-- GameBoard::isValidPosition(pos). -/
def GameBoard.isValidPosition (b : GameBoard) (p : Position) : Bool :=
  decide (0 ≤ p.x) && decide (p.x < b.width) && decide (0 ≤ p.y) && decide (p.y < b.height)

/-- The level computed by Game::updateGameSpeed: score / 100 + 1 with C++
truncating integer division. -/
def levelOf (score : Int) : Int := score.tdiv 100 + 1

/-- The tick interval computed by Game::updateGameSpeed:
max(50, 200 - level * 15). -/
def tickIntervalMs (score : Int) : Int := max 50 (200 - levelOf score * 15)

/-- class Game: the simulation state owned by the controller.  gameOver,
gameRunning and paused encode the phase machine; highScore lives only in
process memory. -/
structure Game where
  snake : Snake
  food : Food
  board : GameBoard
  score : Int
  highScore : Int
  gameOver : Bool
  gameRunning : Bool
  paused : Bool
  gameSpeed : Int
  currentLevel : String
  oldFoodPos : Position
  foodEaten : Bool
deriving DecidableEq

/-- Game::updateGameSpeed(): recompute gameSpeed and the level label from the
score. -/
def Game.updateGameSpeed (g : Game) : Game :=
  { g with gameSpeed := tickIntervalMs g.score
         , currentLevel := "Level " ++ toString (levelOf g.score) }

/-- Game::update(): the per-tick state transition.  No-op when game over or
paused; otherwise clear foodEaten, move the snake, recompute speed, check
wall and self collision (setting gameOver), and on head = food add the food
value to the score, mark growth, remember the eaten food position and respawn
the food avoiding the moved body.  Returns none only when the respawn fuel
runs out. -/
def Game.update (g : Game) (fuel : Nat) (r : Rng) : Option (Game × Rng) :=
  if g.gameOver || g.paused then some (g, r)
  else
    let g2 := Game.updateGameSpeed { g with foodEaten := false, snake := g.snake.move }
    let head := g2.snake.getHead
    if !(g2.board.isValidPosition head) then some ({ g2 with gameOver := true }, r)
    else if g2.snake.checkSelfCollision then some ({ g2 with gameOver := true }, r)
    else if head = g2.food.position then
      match g2.food.generateFood g2.board.width g2.board.height g2.snake.body fuel r with
      | none => none
      | some (f, r2) =>
        some ({ g2 with score := g2.score + g2.food.value
                      , snake := g2.snake.grow
                      , foodEaten := true
                      , oldFoodPos := g2.food.position
                      , food := f }, r2)
    else some (g2, r)

/-- Game::Game(): fresh snake and board, zero score, speed 150, level label
reset, and an initial food generated avoiding the initial body; oldFoodPos is
the generated food position. -/
def Game.initWith (fuel : Nat) (r : Rng) : Option (Game × Rng) :=
  match Food.init.generateFood GameBoard.init.width GameBoard.init.height
      Snake.init.body fuel r with
  | none => none
  | some (f, r2) =>
    some ({ snake := Snake.init
          , food := f
          , board := GameBoard.init
          , score := 0
          , highScore := 0
          , gameOver := false
          , gameRunning := true
          , paused := false
          , gameSpeed := 150
          , currentLevel := "Level 1"
          , oldFoodPos := f.position
          , foodEaten := false }, r2)

/-- Game::saveHighScore(): commit the score to the high score if larger. -/
def Game.saveHighScore (g : Game) : Game :=
  if g.score > g.highScore then { g with highScore := g.score } else g

/-- Game::restart(): reset the snake, score, flags, speed and level label and
regenerate the food relative to the reset body (resetDrawnFlags touches only
render memory). -/
def Game.restart (g : Game) (fuel : Nat) (r : Rng) : Option (Game × Rng) :=
  let s := g.snake.reset
  match g.food.generateFood g.board.width g.board.height s.body fuel r with
  | none => none
  | some (f, r2) =>
    some ({ g with snake := s
                 , score := 0
                 , gameOver := false
                 , paused := false
                 , gameSpeed := 150
                 , currentLevel := "Level 1"
                 , food := f }, r2)

/-- The logical keys Game::processInput reacts to, after the platform layer
has decoded arrow sequences; every other key is ignored. -/
inductive Key where
  | up
  | down
  | left
  | right
  | pauseKey
  | quitKey
deriving DecidableEq

/-- Game::processInput(): directional keys are forwarded to
Snake::setDirection, p toggles pause, q clears gameRunning. -/
def Game.processKey (g : Game) : Key → Game
  | .up => { g with snake := g.snake.setDirection .UP }
  | .down => { g with snake := g.snake.setDirection .DOWN }
  | .left => { g with snake := g.snake.setDirection .LEFT }
  | .right => { g with snake := g.snake.setDirection .RIGHT }
  | .pauseKey => { g with paused := !g.paused }
  | .quitKey => { g with gameRunning := false }

/-- The game states reachable by the main loop: the constructed initial
state, then key processing, ticks, the high-score commit on game over, and
restart from a game-over state. -/
inductive Reach : Game → Prop
  | init : ∀ fuel r g r', Game.initWith fuel r = some (g, r') → Reach g
  | key : ∀ g k, Reach g → Reach (g.processKey k)
  | tick : ∀ g fuel r g' r', Reach g → g.update fuel r = some (g', r') → Reach g'
  | save : ∀ g, Reach g → Reach g.saveHighScore
  | restartStep : ∀ g fuel r g' r', Reach g → g.gameOver = true →
      g.restart fuel r = some (g', r') → Reach g'

/-- The n-th position drawn by the rejection loop, as a function of the
rand() stream: iteration n consumes the stream values at offsets 2n and
2n + 1. -/
def posAt (width height : Int) (r : Rng) (n : Nat) : Position :=
  ⟨(r.stream (r.idx + 2 * n) : Int) % width, (r.stream (r.idx + 2 * n + 1) : Int) % height⟩

def oneRng : Rng := ⟨fun _ => 0, 0⟩

def idRng : Rng := ⟨fun n => n, 0⟩

def demoRng : Rng := ⟨fun _ => 0, 0⟩

def eatSnake : Snake :=
  ⟨[⟨10, 10⟩, ⟨9, 10⟩, ⟨8, 10⟩], [⟨10, 10⟩, ⟨9, 10⟩, ⟨8, 10⟩], .RIGHT, false⟩

def eatGame : Game :=
  ⟨eatSnake, ⟨⟨11, 10⟩, '*', 12, 10⟩, ⟨30, 20⟩, 0, 0, false, true, false, 150,
    "Level 1", ⟨11, 10⟩, false⟩

def wallSnake : Snake :=
  ⟨[⟨29, 10⟩, ⟨28, 10⟩, ⟨27, 10⟩], [⟨29, 10⟩, ⟨28, 10⟩, ⟨27, 10⟩], .RIGHT, false⟩

def wallGame : Game :=
  ⟨wallSnake, ⟨⟨0, 0⟩, '*', 12, 10⟩, ⟨30, 20⟩, 0, 0, false, true, false, 150,
    "Level 1", ⟨0, 0⟩, false⟩

/-- The simulation invariant: the body is never empty, and as long as the
game is not over it has no duplicate segment. -/
def GameInv (g : Game) : Prop :=
  g.snake.body ≠ [] ∧ (g.gameOver = false → g.snake.body.Nodup)

def demoGame : Game :=
  ⟨Snake.init, ⟨⟨0, 0⟩, '$', 14, 50⟩, ⟨30, 20⟩, 0, 0, false, true, false, 150,
    "Level 1", ⟨0, 0⟩, false⟩

/-- Snake API calls as claim C8 quantifies over them. -/
inductive SnakeOp where
  | setDir : Direction → SnakeOp
  | advance : SnakeOp
deriving DecidableEq

/-- Apply one Snake API call. -/
def SnakeOp.apply (s : Snake) : SnakeOp → Snake
  | .setDir d => s.setDirection d
  | .advance => s.move

/-- Apply a sequence of Snake API calls, left to right. -/
def applyOps (s : Snake) : List SnakeOp → Snake
  | [] => s
  | op :: ops => applyOps (SnakeOp.apply s op) ops

namespace Portable

/-- Snake::setDirection of src/unnamed/part_000 (lines 290-299). -/
def setDirection (s : Snake) (dir : Direction) : Snake :=
  if (s.direction = .UP ∧ dir ≠ .DOWN) ∨
     (s.direction = .DOWN ∧ dir ≠ .UP) ∨
     (s.direction = .LEFT ∧ dir ≠ .RIGHT) ∨
     (s.direction = .RIGHT ∧ dir ≠ .LEFT) ∨
     s.direction = .STOP
  then { s with direction := dir }
  else s

/-- Snake::move of src/unnamed/part_000 (lines 303-322); its switch carries
an explicit default branch that leaves the head unchanged. -/
def move (s : Snake) : Snake :=
  if s.direction = .STOP then s
  else
    match s.body with
    | [] => s
    | h :: t =>
      let newHead :=
        match s.direction with
        | .UP => { h with y := h.y - 1 }
        | .DOWN => { h with y := h.y + 1 }
        | .LEFT => { h with x := h.x - 1 }
        | .RIGHT => { h with x := h.x + 1 }
        | .STOP => h
      if !s.growing then
        { s with previousBody := h :: t, body := (newHead :: h :: t).dropLast }
      else
        { s with previousBody := h :: t, body := newHead :: h :: t, growing := false }

/-- Snake::checkSelfCollision of src/unnamed/part_000 (lines 329-336). -/
def checkSelfCollision (s : Snake) : Bool :=
  if s.body.length ≤ 1 then false
  else
    match s.body with
    | [] => false
    | h :: t => decide (h ∈ t)

/-- Snake::reset of src/unnamed/part_000 (lines 340-348). -/
def resetSnake (s : Snake) : Snake :=
  { s with body := [⟨10, 10⟩, ⟨9, 10⟩, ⟨8, 10⟩]
         , previousBody := [⟨10, 10⟩, ⟨9, 10⟩, ⟨8, 10⟩]
         , direction := .STOP
         , growing := false }

/-- The rejection loop of Food::generateFood of src/unnamed/part_000. -/
def sampleFoodPos (width height : Int) (snakeBody : List Position) :
    Nat → Rng → Option (Position × Rng)
  | 0, _ => none
  | fuel + 1, r =>
    let (a, r1) := r.next
    let (b, r2) := r1.next
    let p : Position := ⟨(a : Int) % width, (b : Int) % height⟩
    if p ∈ snakeBody then sampleFoodPos width height snakeBody fuel r2
    else some (p, r2)

/-- Food::generateFood of src/unnamed/part_000 (lines 253-268). -/
def generateFood (f : Food) (width height : Int) (snakeBody : List Position)
    (fuel : Nat) (r : Rng) : Option (Food × Rng) :=
  match sampleFoodPos width height snakeBody fuel r with
  | none => none
  | some (p, r2) =>
    let (c, r3) := r2.next
    if c % 10 = 0 then
      some ({ f with position := p, symbol := '$', color := 14, value := 50 }, r3)
    else
      some ({ f with position := p, symbol := '*', color := 12, value := 10 }, r3)

/-- GameBoard::isValidPosition of src/unnamed/part_000 (lines 546-548). -/
def isValidPosition (b : GameBoard) (p : Position) : Bool :=
  decide (0 ≤ p.x) && decide (p.x < b.width) && decide (0 ≤ p.y) && decide (p.y < b.height)

/-- Game::updateGameSpeed of src/unnamed/part_000 (lines 586-590). -/
def updateGameSpeed (g : Game) : Game :=
  let level := g.score.tdiv 100 + 1
  { g with gameSpeed := max 50 (200 - level * 15)
         , currentLevel := "Level " ++ toString level }

/-- Game::update of src/unnamed/part_000 (lines 750-775). -/
def update (g : Game) (fuel : Nat) (r : Rng) : Option (Game × Rng) :=
  if g.gameOver || g.paused then some (g, r)
  else
    let g2 := Portable.updateGameSpeed
      { g with foodEaten := false, snake := Portable.move g.snake }
    let head := g2.snake.getHead
    if !(Portable.isValidPosition g2.board head) then some ({ g2 with gameOver := true }, r)
    else if Portable.checkSelfCollision g2.snake then some ({ g2 with gameOver := true }, r)
    else if head = g2.food.position then
      match Portable.generateFood g2.food g2.board.width g2.board.height
          g2.snake.body fuel r with
      | none => none
      | some (f, r2) =>
        some ({ g2 with score := g2.score + g2.food.value
                      , snake := g2.snake.grow
                      , foodEaten := true
                      , oldFoodPos := g2.food.position
                      , food := f }, r2)
    else some (g2, r)

end Portable

lemma dropLast_cons_of_ne_nil {α : Type} (a : α) {l : List α} (h : l ≠ []) :
    (a :: l).dropLast = a :: l.dropLast := by
  cases l with
  | nil => exact absurd rfl h
  | cons b t => rfl

lemma Snake.move_cons_not_growing (s : Snake) (h : Position) (t : List Position)
    (hb : s.body = h :: t) (hd : s.direction ≠ Direction.STOP) (hg : s.growing = false) :
    s.move = { s with previousBody := h :: t,
                      body := s.direction.translate h :: (h :: t).dropLast } := by
  unfold Snake.move
  rw [if_neg hd, hb, hg]
  simp [dropLast_cons_of_ne_nil]

lemma Snake.move_cons_growing (s : Snake) (h : Position) (t : List Position)
    (hb : s.body = h :: t) (hd : s.direction ≠ Direction.STOP) (hg : s.growing = true) :
    s.move = { s with previousBody := h :: t,
                      body := s.direction.translate h :: h :: t,
                      growing := false } := by
  unfold Snake.move
  rw [if_neg hd, hb, hg]
  simp

lemma Snake.move_direction (s : Snake) : s.move.direction = s.direction := by
  unfold Snake.move
  split
  · rfl
  · split
    · rfl
    · split <;> rfl

lemma Snake.setDirection_direction (s : Snake) (d : Direction) :
    (s.setDirection d).direction = d ∨ (s.setDirection d).direction = s.direction := by
  unfold Snake.setDirection
  split
  · exact Or.inl rfl
  · exact Or.inr rfl

/-- Claim C1: advance() is a no-op when the direction is STOPPED; otherwise the new
head is the old head translated by the direction's unit vector (UP: y-1,
DOWN: y+1, LEFT: x-1, RIGHT: x+1) and is inserted at the front; without
pending growth the tail segment is removed and the length is unchanged, with
pending growth the tail is kept, the length grows by exactly one, and the
growth flag is cleared. -/
theorem snake_advance_spec :
    (∀ p : Position,
      Direction.UP.translate p = ⟨p.x, p.y - 1⟩ ∧
      Direction.DOWN.translate p = ⟨p.x, p.y + 1⟩ ∧
      Direction.LEFT.translate p = ⟨p.x - 1, p.y⟩ ∧
      Direction.RIGHT.translate p = ⟨p.x + 1, p.y⟩) ∧
    (∀ s : Snake, s.direction = Direction.STOP → s.move = s) ∧
    (∀ (s : Snake) (h : Position) (t : List Position),
      s.body = h :: t → s.direction ≠ Direction.STOP →
      s.move.body.head? = some (s.direction.translate h) ∧
      (s.growing = false →
        s.move.body = s.direction.translate h :: (h :: t).dropLast ∧
        s.move.body.length = s.body.length ∧
        s.move.growing = false) ∧
      (s.growing = true →
        s.move.body = s.direction.translate h :: h :: t ∧
        s.move.body.length = s.body.length + 1 ∧
        s.move.growing = false)) := by
  refine ⟨fun p => ⟨rfl, rfl, rfl, rfl⟩, fun s hd => by simp [Snake.move, hd], ?_⟩
  intro s h t hb hd
  cases hg : s.growing with
  | false =>
    rw [Snake.move_cons_not_growing s h t hb hd hg]
    refine ⟨rfl, fun _ => ⟨rfl, ?_, hg⟩, fun hc => absurd hc (by decide)⟩
    rw [hb]
    simp [List.length_dropLast]
  | true =>
    rw [Snake.move_cons_growing s h t hb hd hg]
    exact ⟨rfl, fun hc => absurd hc (by decide),
      fun _ => ⟨rfl, by rw [hb]; simp, rfl⟩⟩

/-- Witness for claim C1: a length-3 snake at head (10,10) facing RIGHT, not
growing, advances to head (11,10) with the tail removed. -/
theorem snake_advance_spec_witness :
    ({ body := [⟨10,10⟩, ⟨9,10⟩, ⟨8,10⟩], previousBody := [⟨10,10⟩, ⟨9,10⟩, ⟨8,10⟩],
       direction := .RIGHT, growing := false } : Snake).body = ⟨10,10⟩ :: [⟨9,10⟩, ⟨8,10⟩] ∧
    ({ body := [⟨10,10⟩, ⟨9,10⟩, ⟨8,10⟩], previousBody := [⟨10,10⟩, ⟨9,10⟩, ⟨8,10⟩],
       direction := .RIGHT, growing := false } : Snake).direction ≠ Direction.STOP ∧
    ({ body := [⟨10,10⟩, ⟨9,10⟩, ⟨8,10⟩], previousBody := [⟨10,10⟩, ⟨9,10⟩, ⟨8,10⟩],
       direction := .RIGHT, growing := false } : Snake).move.body.head? =
      some (Direction.RIGHT.translate ⟨10,10⟩) :=
  ⟨rfl, by decide,
    ((snake_advance_spec.2.2
      { body := [⟨10,10⟩, ⟨9,10⟩, ⟨8,10⟩], previousBody := [⟨10,10⟩, ⟨9,10⟩, ⟨8,10⟩],
        direction := .RIGHT, growing := false }
      ⟨10,10⟩ [⟨9,10⟩, ⟨8,10⟩] rfl (by decide)).1)⟩

/-- Claim C2: setDirection(r) is a silent no-op exactly when r is the opposite of a
non-STOPPED current direction; in every other case (including a STOPPED
current direction, which accepts anything) the direction becomes r. -/
theorem set_direction_spec :
    ∀ (s : Snake) (r : Direction),
      (((s.direction = Direction.UP ∧ r = Direction.DOWN) ∨
        (s.direction = Direction.DOWN ∧ r = Direction.UP) ∨
        (s.direction = Direction.LEFT ∧ r = Direction.RIGHT) ∨
        (s.direction = Direction.RIGHT ∧ r = Direction.LEFT)) →
          s.setDirection r = s) ∧
      ((s.direction = Direction.STOP ∨
        ¬((s.direction = Direction.UP ∧ r = Direction.DOWN) ∨
          (s.direction = Direction.DOWN ∧ r = Direction.UP) ∨
          (s.direction = Direction.LEFT ∧ r = Direction.RIGHT) ∨
          (s.direction = Direction.RIGHT ∧ r = Direction.LEFT))) →
          (s.setDirection r).direction = r) := by
  intro s r
  cases hd : s.direction <;> cases r <;>
    simp [Snake.setDirection, hd]

/-- Witness for claim C2: with current direction UP the request DOWN is silently
ignored, while the request LEFT is accepted. -/
theorem set_direction_spec_witness :
    ((Snake.init.setDirection Direction.UP).direction = Direction.UP ∧
       Direction.DOWN = Direction.DOWN) ∧
    (Snake.init.setDirection Direction.UP).setDirection Direction.DOWN =
      Snake.init.setDirection Direction.UP ∧
    ((Snake.init.setDirection Direction.UP).setDirection Direction.LEFT).direction =
      Direction.LEFT :=
  ⟨⟨by decide, rfl⟩,
   (set_direction_spec (Snake.init.setDirection Direction.UP) Direction.DOWN).1
     (Or.inl ⟨by decide, rfl⟩),
   (set_direction_spec (Snake.init.setDirection Direction.UP) Direction.LEFT).2
     (Or.inr (by decide))⟩

/-- Claim C6: level(s) = s/100 + 1 and tickIntervalMs(s) = max(50, 200 - level*15);
level is monotone in the score, the tick interval is antitone, and it never
drops below 50; updateGameSpeed installs exactly these values. -/
theorem speed_level_spec :
    (∀ s : Int, 0 ≤ s → levelOf s = s / 100 + 1 ∧
        tickIntervalMs s = max 50 (200 - levelOf s * 15)) ∧
    (∀ s1 s2 : Int, 0 ≤ s1 → s1 < s2 →
        levelOf s1 ≤ levelOf s2 ∧ tickIntervalMs s2 ≤ tickIntervalMs s1) ∧
    (∀ s : Int, 50 ≤ tickIntervalMs s) ∧
    (∀ g : Game, g.updateGameSpeed.gameSpeed = tickIntervalMs g.score ∧
        g.updateGameSpeed.currentLevel = "Level " ++ toString (levelOf g.score)) := by
  have hcast : ∀ n : Nat, levelOf (n : Int) = ((n / 100 : Nat) : Int) + 1 := fun n => rfl
  refine ⟨?_, ?_, fun s => le_max_left _ _, fun g => ⟨rfl, rfl⟩⟩
  · intro s hs
    obtain ⟨n, rfl⟩ := Int.eq_ofNat_of_zero_le hs
    exact ⟨rfl, rfl⟩
  · intro s1 s2 h1 h2
    obtain ⟨n1, rfl⟩ := Int.eq_ofNat_of_zero_le h1
    obtain ⟨n2, rfl⟩ := Int.eq_ofNat_of_zero_le (le_trans h1 (le_of_lt h2))
    have hn : n1 ≤ n2 := by exact_mod_cast le_of_lt h2
    have hlev : levelOf (n1 : Int) ≤ levelOf (n2 : Int) := by
      rw [hcast, hcast]
      have := Nat.div_le_div_right (c := 100) hn
      omega
    refine ⟨hlev, ?_⟩
    unfold tickIntervalMs
    omega

/-- Witness for claim C6 at scores 150 and 320: level goes from 2 to 4 and the tick
interval from 170 down to 140. -/
theorem speed_level_spec_witness :
    (0 : Int) ≤ 150 ∧ (150 : Int) < 320 ∧
    levelOf 150 ≤ levelOf 320 ∧ tickIntervalMs 320 ≤ tickIntervalMs 150 :=
  ⟨by decide, by decide,
   (speed_level_spec.2.1 150 320 (by decide) (by decide)).1,
   (speed_level_spec.2.1 150 320 (by decide) (by decide)).2⟩

lemma Snake.move_stop (s : Snake) (hd : s.direction = Direction.STOP) : s.move = s := by
  simp [Snake.move, hd]

lemma Snake.move_nil (s : Snake) (hb : s.body = []) : s.move = s := by
  unfold Snake.move
  rw [hb]
  split <;> rfl

lemma Snake.move_body_ne_nil (s : Snake) (hb : s.body ≠ []) : s.move.body ≠ [] := by
  by_cases hd : s.direction = Direction.STOP
  · rw [Snake.move_stop s hd]; exact hb
  · cases hbe : s.body with
    | nil => exact absurd hbe hb
    | cons h t =>
      cases hg : s.growing
      · rw [Snake.move_cons_not_growing s h t hbe hd hg]; simp
      · rw [Snake.move_cons_growing s h t hbe hd hg]; simp

lemma Snake.checkSelfCollision_cons (s : Snake) (h : Position) (t : List Position)
    (hb : s.body = h :: t) : s.checkSelfCollision = decide (h ∈ t) := by
  unfold Snake.checkSelfCollision
  rw [hb]
  cases t with
  | nil => simp
  | cons b t2 => simp

lemma Game.update_noop (g : Game) (fuel : Nat) (r : Rng)
    (h : g.gameOver = true ∨ g.paused = true) :
    g.update fuel r = some (g, r) := by
  unfold Game.update
  rcases h with h | h <;> rw [h] <;> simp

lemma Game.update_wall (g : Game) (fuel : Nat) (r : Rng)
    (hgo : g.gameOver = false) (hp : g.paused = false)
    (hv : g.board.isValidPosition g.snake.move.getHead = false) :
    g.update fuel r =
      some ({ Game.updateGameSpeed { g with foodEaten := false, snake := g.snake.move }
              with gameOver := true }, r) := by
  simp only [Game.update, hgo, hp, Game.updateGameSpeed]
  simp [hv]

lemma Game.update_selfcol (g : Game) (fuel : Nat) (r : Rng)
    (hgo : g.gameOver = false) (hp : g.paused = false)
    (hv : g.board.isValidPosition g.snake.move.getHead = true)
    (hc : g.snake.move.checkSelfCollision = true) :
    g.update fuel r =
      some ({ Game.updateGameSpeed { g with foodEaten := false, snake := g.snake.move }
              with gameOver := true }, r) := by
  simp only [Game.update, hgo, hp, Game.updateGameSpeed]
  simp [hv, hc]

lemma Game.update_plain (g : Game) (fuel : Nat) (r : Rng)
    (hgo : g.gameOver = false) (hp : g.paused = false)
    (hv : g.board.isValidPosition g.snake.move.getHead = true)
    (hc : g.snake.move.checkSelfCollision = false)
    (he : g.snake.move.getHead ≠ g.food.position) :
    g.update fuel r =
      some (Game.updateGameSpeed { g with foodEaten := false, snake := g.snake.move }, r) := by
  simp only [Game.update, hgo, hp, Game.updateGameSpeed]
  simp [hv, hc, he]

lemma Game.update_eat (g : Game) (fuel : Nat) (r : Rng) (f' : Food) (r' : Rng)
    (hgo : g.gameOver = false) (hp : g.paused = false)
    (hv : g.board.isValidPosition g.snake.move.getHead = true)
    (hc : g.snake.move.checkSelfCollision = false)
    (he : g.snake.move.getHead = g.food.position)
    (hgen : g.food.generateFood g.board.width g.board.height g.snake.move.body fuel r
      = some (f', r')) :
    g.update fuel r =
      some ({ Game.updateGameSpeed { g with foodEaten := false, snake := g.snake.move } with
              score := g.score + g.food.value
            , snake := g.snake.move.grow
            , foodEaten := true
            , oldFoodPos := g.food.position
            , food := f' }, r') := by
  simp only [Game.update, hgo, hp, Game.updateGameSpeed, Snake.grow]
  simp only [hv, hc]
  simp [he, hgen]

lemma Game.update_eat_none (g : Game) (fuel : Nat) (r : Rng)
    (hgo : g.gameOver = false) (hp : g.paused = false)
    (hv : g.board.isValidPosition g.snake.move.getHead = true)
    (hc : g.snake.move.checkSelfCollision = false)
    (he : g.snake.move.getHead = g.food.position)
    (hgen : g.food.generateFood g.board.width g.board.height g.snake.move.body fuel r
      = none) :
    g.update fuel r = none := by
  simp only [Game.update, hgo, hp, Game.updateGameSpeed]
  simp only [hv, hc]
  simp [he, hgen]

lemma isValidPosition_iff (b : GameBoard) (p : Position) :
    b.isValidPosition p = true ↔
      (0 ≤ p.x ∧ p.x < b.width ∧ 0 ≤ p.y ∧ p.y < b.height) := by
  simp [GameBoard.isValidPosition, and_assoc]

lemma sampleFoodPos_spec (width height : Int) (body : List Position)
    (hw : 0 < width) (hh : 0 < height) :
    ∀ (fuel : Nat) (r : Rng) (p : Position) (r' : Rng),
      sampleFoodPos width height body fuel r = some (p, r') →
      (0 ≤ p.x ∧ p.x < width ∧ 0 ≤ p.y ∧ p.y < height) ∧ p ∉ body := by
  intro fuel
  induction fuel with
  | zero => intro r p r' h; simp [sampleFoodPos] at h
  | succ n ih =>
    intro r p r' h
    simp only [sampleFoodPos, Rng.next] at h
    split at h
    · exact ih _ _ _ h
    · rename_i hmem
      simp only [Option.some.injEq, Prod.mk.injEq] at h
      obtain ⟨hp, _⟩ := h
      subst hp
      refine ⟨⟨Int.emod_nonneg _ (ne_of_gt hw), Int.emod_lt_of_pos _ hw,
        Int.emod_nonneg _ (ne_of_gt hh), Int.emod_lt_of_pos _ hh⟩, hmem⟩

lemma generateFood_pos (f : Food) (width height : Int) (body : List Position)
    (hw : 0 < width) (hh : 0 < height) (fuel : Nat) (r : Rng) (f' : Food) (r' : Rng)
    (h : f.generateFood width height body fuel r = some (f', r')) :
    (0 ≤ f'.position.x ∧ f'.position.x < width ∧
     0 ≤ f'.position.y ∧ f'.position.y < height) ∧ f'.position ∉ body := by
  unfold Food.generateFood at h
  cases hs : sampleFoodPos width height body fuel r with
  | none => rw [hs] at h; exact absurd h (by simp)
  | some pr =>
    obtain ⟨p, r2⟩ := pr
    rw [hs] at h
    have hps := sampleFoodPos_spec width height body hw hh fuel r p r2 hs
    simp only [Rng.next] at h
    split at h <;>
      (simp only [Option.some.injEq, Prod.mk.injEq] at h; obtain ⟨hf, _⟩ := h;
       subst hf; exact hps)

lemma generateFood_kind (f : Food) (width height : Int) (body : List Position)
    (fuel : Nat) (r : Rng) (f' : Food) (r' : Rng)
    (h : f.generateFood width height body fuel r = some (f', r')) :
    (f'.value = 50 ∧ f'.symbol = '$') ∨ (f'.value = 10 ∧ f'.symbol = '*') := by
  unfold Food.generateFood at h
  cases hs : sampleFoodPos width height body fuel r with
  | none => rw [hs] at h; exact absurd h (by simp)
  | some pr =>
    obtain ⟨p, r2⟩ := pr
    rw [hs] at h
    simp only [Rng.next] at h
    split at h
    · simp only [Option.some.injEq, Prod.mk.injEq] at h
      obtain ⟨hf, _⟩ := h; subst hf; exact Or.inl ⟨rfl, rfl⟩
    · simp only [Option.some.injEq, Prod.mk.injEq] at h
      obtain ⟨hf, _⟩ := h; subst hf; exact Or.inr ⟨rfl, rfl⟩

lemma update_foodEaten (g : Game) (fuel : Nat) (r : Rng) (g' : Game) (r' : Rng)
    (hgo : g.gameOver = false) (hp : g.paused = false)
    (h : g.update fuel r = some (g', r')) (hfe : g'.foodEaten = true) :
    g.food.generateFood g.board.width g.board.height g'.snake.body fuel r
      = some (g'.food, r') ∧ g'.board = g.board := by
  by_cases hv : g.board.isValidPosition g.snake.move.getHead = true
  · by_cases hc : g.snake.move.checkSelfCollision = true
    · rw [Game.update_selfcol g fuel r hgo hp hv hc] at h
      simp only [Option.some.injEq, Prod.mk.injEq] at h
      obtain ⟨hg, _⟩ := h
      subst hg
      simp [Game.updateGameSpeed] at hfe
    · by_cases he : g.snake.move.getHead = g.food.position
      · cases hgen : g.food.generateFood g.board.width g.board.height
            g.snake.move.body fuel r with
        | none =>
          rw [Game.update_eat_none g fuel r hgo hp hv
            (by simpa using hc) he hgen] at h
          exact absurd h (by simp)
        | some fr =>
          obtain ⟨f2, r2⟩ := fr
          rw [Game.update_eat g fuel r f2 r2 hgo hp hv
            (by simpa using hc) he hgen] at h
          simp only [Option.some.injEq, Prod.mk.injEq] at h
          obtain ⟨hg, hr⟩ := h
          subst hg
          subst hr
          exact ⟨by simpa [Snake.grow] using hgen, rfl⟩
      · rw [Game.update_plain g fuel r hgo hp hv (by simpa using hc) he] at h
        simp only [Option.some.injEq, Prod.mk.injEq] at h
        obtain ⟨hg, _⟩ := h
        subst hg
        simp [Game.updateGameSpeed] at hfe
  · rw [Game.update_wall g fuel r hgo hp (by simpa using hv)] at h
    simp only [Option.some.injEq, Prod.mk.injEq] at h
    obtain ⟨hg, _⟩ := h
    subst hg
    simp [Game.updateGameSpeed] at hfe

/-- Claim C3: whenever Food::generateFood returns, the food position is
within board bounds and outside the occupied body it was given; this holds
at the three call sites: the initial generation in the Game constructor,
the regeneration after eating inside Game::update, and the regeneration in
Game::restart. -/
theorem food_placement_spec :
    (∀ (f : Food) (width height : Int) (body : List Position) (fuel : Nat) (r : Rng)
        (f' : Food) (r' : Rng), 0 < width → 0 < height →
        f.generateFood width height body fuel r = some (f', r') →
        (0 ≤ f'.position.x ∧ f'.position.x < width ∧
         0 ≤ f'.position.y ∧ f'.position.y < height) ∧ f'.position ∉ body) ∧
    (∀ (fuel : Nat) (r : Rng) (g : Game) (r' : Rng),
        Game.initWith fuel r = some (g, r') →
        g.board.isValidPosition g.food.position = true ∧ g.food.position ∉ g.snake.body) ∧
    (∀ (g : Game) (fuel : Nat) (r : Rng) (g' : Game) (r' : Rng),
        0 < g.board.width → 0 < g.board.height →
        g.gameOver = false → g.paused = false →
        g.update fuel r = some (g', r') → g'.foodEaten = true →
        g'.board.isValidPosition g'.food.position = true ∧
        g'.food.position ∉ g'.snake.body) ∧
    (∀ (g : Game) (fuel : Nat) (r : Rng) (g' : Game) (r' : Rng),
        0 < g.board.width → 0 < g.board.height →
        g.restart fuel r = some (g', r') →
        g'.board.isValidPosition g'.food.position = true ∧
        g'.food.position ∉ g'.snake.body) := by
  refine ⟨fun f w h body fuel r f' r' hw hh hgen =>
      generateFood_pos f w h body hw hh fuel r f' r' hgen, ?_, ?_, ?_⟩
  · intro fuel r g r' h
    unfold Game.initWith at h
    cases hgen : Food.init.generateFood GameBoard.init.width GameBoard.init.height
        Snake.init.body fuel r with
    | none => rw [hgen] at h; exact absurd h (by simp)
    | some fr =>
      obtain ⟨f, r2⟩ := fr
      rw [hgen] at h
      simp only [Option.some.injEq, Prod.mk.injEq] at h
      obtain ⟨hg, _⟩ := h
      subst hg
      have := generateFood_pos Food.init GameBoard.init.width GameBoard.init.height
        Snake.init.body (by decide) (by decide) fuel r f r2 hgen
      exact ⟨(isValidPosition_iff _ _).mpr this.1, this.2⟩
  · intro g fuel r g' r' hw hh hgo hp h hfe
    obtain ⟨hgen, hboard⟩ := update_foodEaten g fuel r g' r' hgo hp h hfe
    have := generateFood_pos g.food g.board.width g.board.height g'.snake.body
      hw hh fuel r g'.food r' hgen
    rw [hboard]
    exact ⟨(isValidPosition_iff _ _).mpr this.1, this.2⟩
  · intro g fuel r g' r' hw hh h
    simp only [Game.restart] at h
    cases hgen : g.food.generateFood g.board.width g.board.height
        g.snake.reset.body fuel r with
    | none => rw [hgen] at h; exact absurd h (by simp)
    | some fr =>
      obtain ⟨f, r2⟩ := fr
      rw [hgen] at h
      simp only [Option.some.injEq, Prod.mk.injEq] at h
      obtain ⟨hg, _⟩ := h
      subst hg
      have := generateFood_pos g.food g.board.width g.board.height
        g.snake.reset.body hw hh fuel r f r2 hgen
      exact ⟨(isValidPosition_iff _ _).mpr this.1, this.2⟩

lemma sampleFoodPos_succeeds (width height : Int) (body : List Position) :
    ∀ (n : Nat) (r : Rng), posAt width height r n ∉ body →
      ∃ q r', sampleFoodPos width height body (n + 1) r = some (q, r') := by
  intro n
  induction n with
  | zero =>
    intro r hfree
    simp only [posAt, Nat.mul_zero, Nat.add_zero] at hfree
    refine ⟨⟨(r.stream r.idx : Int) % width, (r.stream (r.idx + 1) : Int) % height⟩,
      ⟨r.stream, r.idx + 1 + 1⟩, ?_⟩
    simp only [sampleFoodPos, Rng.next]
    rw [if_neg hfree]
  | succ n ih =>
    intro r hfree
    by_cases hmem :
        (⟨(r.stream r.idx : Int) % width, (r.stream (r.idx + 1) : Int) % height⟩ : Position)
          ∈ body
    · have hfree2 : posAt width height ⟨r.stream, r.idx + 1 + 1⟩ n ∉ body := by
        simp only [posAt]
        have h1 : r.idx + 1 + 1 + 2 * n = r.idx + 2 * (n + 1) := by omega
        rw [h1]
        simpa only [posAt] using hfree
      obtain ⟨q, r', hq⟩ := ih ⟨r.stream, r.idx + 1 + 1⟩ hfree2
      refine ⟨q, r', ?_⟩
      simp only [sampleFoodPos, Rng.next]
      rw [if_pos hmem]
      exact hq
    · refine ⟨⟨(r.stream r.idx : Int) % width, (r.stream (r.idx + 1) : Int) % height⟩,
        ⟨r.stream, r.idx + 1 + 1⟩, ?_⟩
      simp only [sampleFoodPos, Rng.next]
      rw [if_neg hmem]

/-- Claim C9: the rejection-sampling respawn terminates for every call
with a free in-bounds cell, for every rand() stream whose drawn positions
reach each in-bounds cell (as a uniformly random stream does with
probability one): some finite fuel makes sampleFoodPos succeed. -/
theorem food_respawn_terminates :
    ∀ (width height : Int) (body : List Position) (r : Rng),
      0 < width → 0 < height →
      (∃ freeP : Position, 0 ≤ freeP.x ∧ freeP.x < width ∧ 0 ≤ freeP.y ∧
          freeP.y < height ∧ freeP ∉ body) →
      (∀ p : Position, 0 ≤ p.x → p.x < width → 0 ≤ p.y → p.y < height →
          ∃ n, posAt width height r n = p) →
      ∃ (fuel : Nat) (q : Position) (r' : Rng),
        sampleFoodPos width height body fuel r = some (q, r') := by
  intro width height body r hw hh hfree hfair
  obtain ⟨p, hp1, hp2, hp3, hp4, hpfree⟩ := hfree
  obtain ⟨n, hn⟩ := hfair p hp1 hp2 hp3 hp4
  obtain ⟨q, r', hq⟩ := sampleFoodPos_succeeds width height body n r (by rw [hn]; exact hpfree)
  exact ⟨n + 1, q, r', hq⟩

/-- Witness for claim C9 on a 1 by 1 board with an empty body and the
all-zero stream: the free cell (0,0) is drawn immediately. -/
theorem food_respawn_terminates_witness :
    (0 : Int) < 1 ∧ (0 : Int) < 1 ∧
    (∃ freeP : Position, 0 ≤ freeP.x ∧ freeP.x < 1 ∧ 0 ≤ freeP.y ∧
        freeP.y < 1 ∧ freeP ∉ ([] : List Position)) ∧
    (∀ p : Position, 0 ≤ p.x → p.x < 1 → 0 ≤ p.y → p.y < 1 →
        ∃ n, posAt 1 1 oneRng n = p) ∧
    (∃ (fuel : Nat) (q : Position) (r' : Rng),
        sampleFoodPos 1 1 [] fuel oneRng = some (q, r')) := by
  have hfair : ∀ p : Position, 0 ≤ p.x → p.x < 1 → 0 ≤ p.y → p.y < 1 →
      ∃ n, posAt 1 1 oneRng n = p := by
    intro p h1 h2 h3 h4
    refine ⟨0, ?_⟩
    have hx : p.x = 0 := by omega
    have hy : p.y = 0 := by omega
    have hp : p = ⟨0, 0⟩ := by
      obtain ⟨a, b⟩ := p
      simp only at hx hy
      rw [hx, hy]
    rw [hp]
    decide
  refine ⟨by decide, by decide, ⟨⟨0, 0⟩, by decide, by decide, by decide, by decide, by simp⟩,
    hfair, ?_⟩
  exact food_respawn_terminates 1 1 [] oneRng (by decide) (by decide)
    ⟨⟨0, 0⟩, by decide, by decide, by decide, by decide, by simp⟩ hfair

lemma sampleFoodPos_not_mem (width height : Int) (body : List Position) :
    ∀ (fuel : Nat) (r : Rng) (p : Position) (r' : Rng),
      sampleFoodPos width height body fuel r = some (p, r') → p ∉ body := by
  intro fuel
  induction fuel with
  | zero => intro r p r' h; simp [sampleFoodPos] at h
  | succ n ih =>
    intro r p r' h
    simp only [sampleFoodPos, Rng.next] at h
    split at h
    · exact ih _ _ _ h
    · rename_i hmem
      simp only [Option.some.injEq, Prod.mk.injEq] at h
      obtain ⟨hp, _⟩ := h
      subst hp
      exact hmem

lemma generateFood_not_mem (f : Food) (width height : Int) (body : List Position)
    (fuel : Nat) (r : Rng) (f' : Food) (r' : Rng)
    (h : f.generateFood width height body fuel r = some (f', r')) :
    f'.position ∉ body := by
  unfold Food.generateFood at h
  cases hs : sampleFoodPos width height body fuel r with
  | none => rw [hs] at h; exact absurd h (by simp)
  | some pr =>
    obtain ⟨p, r2⟩ := pr
    rw [hs] at h
    have hps := sampleFoodPos_not_mem width height body fuel r p r2 hs
    simp only [Rng.next] at h
    split at h <;>
      (simp only [Option.some.injEq, Prod.mk.injEq] at h; obtain ⟨hf, _⟩ := h;
       subst hf; exact hps)

lemma Snake.move_length_not_growing (s : Snake) (hb : s.body ≠ [])
    (hg : s.growing = false) : s.move.body.length = s.body.length := by
  by_cases hd : s.direction = Direction.STOP
  · rw [Snake.move_stop s hd]
  · cases hbe : s.body with
    | nil => exact absurd hbe hb
    | cons h t =>
      rw [Snake.move_cons_not_growing s h t hbe hd hg]
      simp [List.length_dropLast]

lemma Snake.move_length_growing (s : Snake) (hb : s.body ≠ [])
    (hd : s.direction ≠ Direction.STOP) (hg : s.growing = true) :
    s.move.body.length = s.body.length + 1 := by
  cases hbe : s.body with
  | nil => exact absurd hbe hb
  | cons h t =>
    rw [Snake.move_cons_growing s h t hbe hd hg]
    simp

/-- Claim C4: on a RUNNING tick whose moved head lands on the food, the
score increases by exactly the eaten food's value, growth is marked so the
next advance lengthens the body by one, and the replacement food avoids the
moved body; every food produced by generateFood is worth 10 (common) or 50
(bonus). -/
theorem eat_tick_spec :
    (∀ (g : Game) (fuel : Nat) (r : Rng) (f' : Food) (r' : Rng),
      g.gameOver = false → g.paused = false → g.snake.body ≠ [] →
      g.board.isValidPosition g.snake.move.getHead = true →
      g.snake.move.checkSelfCollision = false →
      g.snake.move.getHead = g.food.position →
      g.food.generateFood g.board.width g.board.height g.snake.move.body fuel r
        = some (f', r') →
      ∃ g', g.update fuel r = some (g', r') ∧
        g'.score = g.score + g.food.value ∧
        g'.snake.growing = true ∧
        g'.food = f' ∧
        g'.snake.body = g.snake.move.body ∧
        f'.position ∉ g.snake.move.body ∧
        (g.snake.growing = false → g'.snake.body.length = g.snake.body.length) ∧
        (g.snake.direction ≠ Direction.STOP →
          g'.snake.move.body.length = g'.snake.body.length + 1)) ∧
    (∀ (f : Food) (width height : Int) (body : List Position) (fuel : Nat) (r : Rng)
        (f' : Food) (r' : Rng),
      f.generateFood width height body fuel r = some (f', r') →
      (f'.value = 50 ∧ f'.symbol = '$') ∨ (f'.value = 10 ∧ f'.symbol = '*')) := by
  constructor
  · intro g fuel r f' r' hgo hp hb hv hc he hgen
    refine ⟨_, Game.update_eat g fuel r f' r' hgo hp hv hc he hgen, rfl, rfl, rfl, rfl,
      generateFood_not_mem _ _ _ _ _ _ _ _ hgen, ?_, ?_⟩
    · intro hgrow
      exact Snake.move_length_not_growing g.snake hb hgrow
    · intro hd
      have hmb : g.snake.move.body ≠ [] := Snake.move_body_ne_nil g.snake hb
      have hdir : (g.snake.move.grow).direction ≠ Direction.STOP := by
        simpa [Snake.grow, Snake.move_direction] using hd
      have := Snake.move_length_growing (g.snake.move.grow)
        (by simpa [Snake.grow] using hmb) hdir (by simp [Snake.grow])
      simpa [Snake.grow] using this
  · exact fun f w h body fuel r f' r' hgen =>
      generateFood_kind f w h body fuel r f' r' hgen

/-- Claim C5: isValidPosition is false exactly when x < 0, x >= width,
y < 0 or y >= height, and a RUNNING tick whose moved head is such a
position ends in GAME_OVER. -/
theorem bounds_game_over_spec :
    (∀ (b : GameBoard) (p : Position),
      b.isValidPosition p = false ↔
        (p.x < 0 ∨ b.width ≤ p.x ∨ p.y < 0 ∨ b.height ≤ p.y)) ∧
    (∀ (g : Game) (fuel : Nat) (r : Rng),
      g.gameOver = false → g.paused = false →
      g.board.isValidPosition g.snake.move.getHead = false →
      ∃ g', g.update fuel r = some (g', r) ∧ g'.gameOver = true) := by
  constructor
  · intro b p
    constructor
    · intro hf
      have hnt : ¬(b.isValidPosition p = true) := by rw [hf]; simp
      rw [isValidPosition_iff] at hnt
      omega
    · intro hor
      cases hb : b.isValidPosition p
      · rfl
      · have := (isValidPosition_iff b p).mp hb
        omega
  · intro g fuel r hgo hp hv
    exact ⟨_, Game.update_wall g fuel r hgo hp hv, rfl⟩

/-- Witness for claim C3: on a 30 by 20 board with the single cell (0,0)
occupied and the identity rand() stream, generateFood succeeds on the second
draw with the common food at (0,1), which is in bounds and unoccupied. -/
theorem food_placement_spec_witness :
    (0 : Int) < 30 ∧ (0 : Int) < 20 ∧
    Food.init.generateFood 30 20 [⟨0, 0⟩] 2 idRng =
      some (⟨⟨0, 1⟩, '*', 12, 10⟩, ⟨fun n => n, 3⟩) ∧
    ((0 ≤ (⟨⟨0, 1⟩, '*', 12, 10⟩ : Food).position.x ∧
      (⟨⟨0, 1⟩, '*', 12, 10⟩ : Food).position.x < 30 ∧
      0 ≤ (⟨⟨0, 1⟩, '*', 12, 10⟩ : Food).position.y ∧
      (⟨⟨0, 1⟩, '*', 12, 10⟩ : Food).position.y < 20) ∧
      (⟨⟨0, 1⟩, '*', 12, 10⟩ : Food).position ∉ [(⟨0, 0⟩ : Position)]) :=
  ⟨by decide, by decide, rfl,
    food_placement_spec.1 Food.init 30 20 [⟨0, 0⟩] 2 idRng ⟨⟨0, 1⟩, '*', 12, 10⟩
      ⟨fun n => n, 3⟩ (by decide) (by decide) rfl⟩

/-- Witness for claim C4: the spec scenario: a length-3 snake at head
(10,10) facing RIGHT with food at (11,10) eats on the tick, scoring the
food's value 10, and the following advance reaches length 4. -/
theorem eat_tick_spec_witness :
    eatGame.gameOver = false ∧ eatGame.paused = false ∧ eatGame.snake.body ≠ [] ∧
    eatGame.board.isValidPosition eatGame.snake.move.getHead = true ∧
    eatGame.snake.move.checkSelfCollision = false ∧
    eatGame.snake.move.getHead = eatGame.food.position ∧
    eatGame.food.generateFood eatGame.board.width eatGame.board.height
      eatGame.snake.move.body 1 demoRng =
        some (⟨⟨0, 0⟩, '$', 14, 50⟩, ⟨fun _ => 0, 3⟩) ∧
    (∃ g', eatGame.update 1 demoRng = some (g', ⟨fun _ => 0, 3⟩) ∧
      g'.score = eatGame.score + eatGame.food.value ∧
      g'.snake.growing = true ∧
      g'.food = ⟨⟨0, 0⟩, '$', 14, 50⟩ ∧
      g'.snake.body = eatGame.snake.move.body ∧
      (⟨⟨0, 0⟩, '$', 14, 50⟩ : Food).position ∉ eatGame.snake.move.body ∧
      (eatGame.snake.growing = false → g'.snake.body.length = eatGame.snake.body.length) ∧
      (eatGame.snake.direction ≠ Direction.STOP →
        g'.snake.move.body.length = g'.snake.body.length + 1)) :=
  ⟨rfl, rfl, by decide, by decide, by decide, by decide, rfl,
    eat_tick_spec.1 eatGame 1 demoRng ⟨⟨0, 0⟩, '$', 14, 50⟩ ⟨fun _ => 0, 3⟩
      rfl rfl (by decide) (by decide) (by decide) (by decide) rfl⟩

/-- Witness for claim C5: the spec scenario: on a 30 by 20 board a snake
at head (29,10) facing RIGHT advances to (30,10), which is out of bounds,
and the tick sets gameOver. -/
theorem bounds_game_over_spec_witness :
    wallGame.snake.move.getHead = ⟨30, 10⟩ ∧
    wallGame.gameOver = false ∧ wallGame.paused = false ∧
    wallGame.board.isValidPosition wallGame.snake.move.getHead = false ∧
    (∃ g', wallGame.update 1 demoRng = some (g', demoRng) ∧ g'.gameOver = true) :=
  ⟨by decide, rfl, rfl, by decide,
    bounds_game_over_spec.2 wallGame 1 demoRng rfl rfl (by decide)⟩

lemma Snake.setDirection_body (s : Snake) (d : Direction) :
    (s.setDirection d).body = s.body := by
  unfold Snake.setDirection
  split <;> rfl

lemma Snake.reset_body (s : Snake) :
    s.reset.body = [⟨10, 10⟩, ⟨9, 10⟩, ⟨8, 10⟩] := rfl

lemma move_nodup (s : Snake) (hnd : s.body.Nodup)
    (hc : s.move.checkSelfCollision = false) : s.move.body.Nodup := by
  by_cases hd : s.direction = Direction.STOP
  · rw [Snake.move_stop s hd]
    exact hnd
  · cases hbe : s.body with
    | nil =>
      rw [Snake.move_nil s hbe]
      exact hnd
    | cons h t =>
      cases hg : s.growing
      · rw [Snake.move_cons_not_growing s h t hbe hd hg] at hc ⊢
        have hnd2 : ((h :: t).dropLast).Nodup :=
          (List.dropLast_sublist (h :: t)).nodup (hbe ▸ hnd)
        have hcc := Snake.checkSelfCollision_cons
          { s with previousBody := h :: t,
                   body := s.direction.translate h :: (h :: t).dropLast }
          (s.direction.translate h) ((h :: t).dropLast) rfl
        rw [hcc] at hc
        simp only [decide_eq_false_iff_not] at hc
        exact List.nodup_cons.mpr ⟨hc, hnd2⟩
      · rw [Snake.move_cons_growing s h t hbe hd hg] at hc ⊢
        have hcc := Snake.checkSelfCollision_cons
          { s with previousBody := h :: t,
                   body := s.direction.translate h :: h :: t,
                   growing := false }
          (s.direction.translate h) (h :: t) rfl
        rw [hcc] at hc
        simp only [decide_eq_false_iff_not] at hc
        exact List.nodup_cons.mpr ⟨hc, hbe ▸ hnd⟩

lemma update_inv (g : Game) (fuel : Nat) (r : Rng) (g' : Game) (r' : Rng)
    (hinv : GameInv g) (h : g.update fuel r = some (g', r')) : GameInv g' := by
  by_cases hstop : g.gameOver = true ∨ g.paused = true
  · rw [Game.update_noop g fuel r hstop] at h
    simp only [Option.some.injEq, Prod.mk.injEq] at h
    obtain ⟨hg, _⟩ := h
    subst hg
    exact hinv
  · push_neg at hstop
    obtain ⟨hgo, hp⟩ := hstop
    simp only [ne_eq, Bool.not_eq_true] at hgo hp
    have hbody := hinv.1
    have hnd := hinv.2 hgo
    by_cases hv : g.board.isValidPosition g.snake.move.getHead = true
    · by_cases hc : g.snake.move.checkSelfCollision = true
      · rw [Game.update_selfcol g fuel r hgo hp hv hc] at h
        simp only [Option.some.injEq, Prod.mk.injEq] at h
        obtain ⟨hg, _⟩ := h
        subst hg
        constructor
        · simpa [Game.updateGameSpeed] using Snake.move_body_ne_nil g.snake hbody
        · intro hfalse
          simp [Game.updateGameSpeed] at hfalse
      · have hc' : g.snake.move.checkSelfCollision = false := by simpa using hc
        by_cases he : g.snake.move.getHead = g.food.position
        · cases hgen : g.food.generateFood g.board.width g.board.height
              g.snake.move.body fuel r with
          | none =>
            rw [Game.update_eat_none g fuel r hgo hp hv hc' he hgen] at h
            exact absurd h (by simp)
          | some fr =>
            obtain ⟨f2, r2⟩ := fr
            rw [Game.update_eat g fuel r f2 r2 hgo hp hv hc' he hgen] at h
            simp only [Option.some.injEq, Prod.mk.injEq] at h
            obtain ⟨hg, _⟩ := h
            subst hg
            constructor
            · simpa [Snake.grow, Game.updateGameSpeed] using
                Snake.move_body_ne_nil g.snake hbody
            · intro _
              simpa [Snake.grow, Game.updateGameSpeed] using move_nodup g.snake hnd hc'
        · rw [Game.update_plain g fuel r hgo hp hv hc' he] at h
          simp only [Option.some.injEq, Prod.mk.injEq] at h
          obtain ⟨hg, _⟩ := h
          subst hg
          constructor
          · simpa [Game.updateGameSpeed] using Snake.move_body_ne_nil g.snake hbody
          · intro _
            simpa [Game.updateGameSpeed] using move_nodup g.snake hnd hc'
    · rw [Game.update_wall g fuel r hgo hp (by simpa using hv)] at h
      simp only [Option.some.injEq, Prod.mk.injEq] at h
      obtain ⟨hg, _⟩ := h
      subst hg
      constructor
      · simpa [Game.updateGameSpeed] using Snake.move_body_ne_nil g.snake hbody
      · intro hfalse
        simp [Game.updateGameSpeed] at hfalse

lemma processKey_inv (g : Game) (k : Key) (h : GameInv g) : GameInv (g.processKey k) := by
  obtain ⟨h1, h2⟩ := h
  cases k <;>
    exact ⟨by simpa [Game.processKey, Snake.setDirection_body] using h1,
      fun hgo => by
        simpa [Game.processKey, Snake.setDirection_body] using
          h2 (by simpa [Game.processKey] using hgo)⟩

lemma saveHighScore_inv (g : Game) (h : GameInv g) : GameInv g.saveHighScore := by
  unfold Game.saveHighScore
  split
  · exact ⟨h.1, h.2⟩
  · exact h

lemma reach_inv : ∀ g : Game, Reach g → GameInv g := by
  intro g hr
  induction hr with
  | init fuel r g0 r' h =>
    unfold Game.initWith at h
    cases hgen : Food.init.generateFood GameBoard.init.width GameBoard.init.height
        Snake.init.body fuel r with
    | none => rw [hgen] at h; exact absurd h (by simp)
    | some fr =>
      obtain ⟨f, r2⟩ := fr
      rw [hgen] at h
      simp only [Option.some.injEq, Prod.mk.injEq] at h
      obtain ⟨hg, _⟩ := h
      subst hg
      constructor
      · show Snake.init.body ≠ []
        decide
      · intro _
        show Snake.init.body.Nodup
        decide
  | key g0 k hr ih => exact processKey_inv g0 k ih
  | tick g0 fuel r g' r' hr hu ih => exact update_inv g0 fuel r g' r' ih hu
  | save g0 hr ih => exact saveHighScore_inv g0 ih
  | restartStep g0 fuel r g' r' hr hgo hre ih =>
    simp only [Game.restart] at hre
    cases hgen : g0.food.generateFood g0.board.width g0.board.height
        g0.snake.reset.body fuel r with
    | none => rw [hgen] at hre; exact absurd hre (by simp)
    | some fr =>
      obtain ⟨f, r2⟩ := fr
      rw [hgen] at hre
      simp only [Option.some.injEq, Prod.mk.injEq] at hre
      obtain ⟨hg, _⟩ := hre
      subst hg
      constructor
      · show g0.snake.reset.body ≠ []
        rw [Snake.reset_body]
        decide
      · intro _
        show g0.snake.reset.body.Nodup
        rw [Snake.reset_body]
        decide

/-- Claim C7: in every reachable state that is not game over the body is
non-empty with the head at index 0 and pairwise distinct positions; the
body length is exactly 3 at creation and at reset; a moved head that equals
a later segment is exactly what checkSelfCollision reports, and such a tick
ends the game. -/
theorem body_invariants_spec :
    (∀ g : Game, Reach g → g.gameOver = false →
      g.snake.body ≠ [] ∧ g.snake.body.Nodup ∧
      g.snake.getHead = g.snake.body.headD ⟨0, 0⟩) ∧
    Snake.init.body.length = 3 ∧
    (∀ s : Snake, s.reset.body.length = 3) ∧
    (∀ (s : Snake) (h : Position) (t : List Position),
      s.move.body = h :: t → (s.move.checkSelfCollision = true ↔ h ∈ t)) ∧
    (∀ (g : Game) (fuel : Nat) (r : Rng),
      g.gameOver = false → g.paused = false →
      g.snake.move.checkSelfCollision = true →
      ∃ g', g.update fuel r = some (g', r) ∧ g'.gameOver = true) := by
  refine ⟨?_, rfl, fun s => rfl, ?_, ?_⟩
  · intro g hr hgo
    have hinv := reach_inv g hr
    exact ⟨hinv.1, hinv.2 hgo, rfl⟩
  · intro s h t hmb
    rw [Snake.checkSelfCollision_cons s.move h t hmb]
    simp
  · intro g fuel r hgo hp hc
    by_cases hv : g.board.isValidPosition g.snake.move.getHead = true
    · exact ⟨_, Game.update_selfcol g fuel r hgo hp hv hc, rfl⟩
    · exact ⟨_, Game.update_wall g fuel r hgo hp (by simpa using hv), rfl⟩

/-- Witness for claim C7: the concrete initial state produced by the Game
constructor under the all-zero rand() stream is reachable and satisfies the
body invariants. -/
theorem body_invariants_spec_witness :
    Game.initWith 1 demoRng = some (demoGame, ⟨fun _ => 0, 3⟩) ∧
    demoGame.gameOver = false ∧
    (demoGame.snake.body ≠ [] ∧ demoGame.snake.body.Nodup ∧
      demoGame.snake.getHead = demoGame.snake.body.headD ⟨0, 0⟩) :=
  ⟨rfl, rfl,
    body_invariants_spec.1 demoGame
      (Reach.init 1 demoRng demoGame ⟨fun _ => 0, 3⟩ rfl) rfl⟩

/-- Counterexample to claim C8 as stated: setDirection is also willing to
install STOP itself.  From the accepted direction UP, the single call
setDirection(STOPPED) returns the direction to STOPPED, so quantifying over
all setDirection calls makes the claim false. -/
theorem stop_reentry_counterexample :
    (Snake.init.setDirection Direction.UP).direction = Direction.UP ∧
    (applyOps (Snake.init.setDirection Direction.UP)
      [SnakeOp.setDir Direction.STOP]).direction = Direction.STOP := by
  constructor
  · decide
  · decide

/-- Claim C8 as amended: once the direction is non-STOPPED it never
becomes STOPPED again under any sequence of advance calls and setDirection
calls whose requested directions are directional (non-STOPPED) — which is
the only way the game's input handler ever calls setDirection. -/
theorem no_stop_reentry_amended :
    ∀ (ops : List SnakeOp) (s : Snake),
      s.direction ≠ Direction.STOP →
      (∀ d, SnakeOp.setDir d ∈ ops → d ≠ Direction.STOP) →
      (applyOps s ops).direction ≠ Direction.STOP := by
  intro ops
  induction ops with
  | nil => intro s hs _; exact hs
  | cons op rest ih =>
    intro s hs hops
    show (applyOps (SnakeOp.apply s op) rest).direction ≠ Direction.STOP
    cases op with
    | setDir d =>
      refine ih (s.setDirection d) ?_ (fun d2 hd2 => hops d2 (List.mem_cons_of_mem _ hd2))
      rcases Snake.setDirection_direction s d with h | h
      · rw [h]
        exact hops d (List.mem_cons_self _ _)
      · rw [h]
        exact hs
    | advance =>
      refine ih s.move ?_ (fun d2 hd2 => hops d2 (List.mem_cons_of_mem _ hd2))
      rw [Snake.move_direction]
      exact hs

/-- Witness for the amended claim C8: from direction UP, a LEFT request
followed by an advance leaves the direction non-STOPPED. -/
theorem no_stop_reentry_amended_witness :
    (Snake.init.setDirection Direction.UP).direction ≠ Direction.STOP ∧
    (∀ d, SnakeOp.setDir d ∈ [SnakeOp.setDir Direction.LEFT, SnakeOp.advance] →
      d ≠ Direction.STOP) ∧
    (applyOps (Snake.init.setDirection Direction.UP)
      [SnakeOp.setDir Direction.LEFT, SnakeOp.advance]).direction ≠ Direction.STOP := by
  have hops : ∀ d, SnakeOp.setDir d ∈ [SnakeOp.setDir Direction.LEFT, SnakeOp.advance] →
      d ≠ Direction.STOP := by
    intro d hd
    simp only [List.mem_cons, List.not_mem_nil, or_false] at hd
    rcases hd with h | h
    · cases h
      decide
    · exact SnakeOp.noConfusion h
  exact ⟨by decide, hops,
    no_stop_reentry_amended [SnakeOp.setDir Direction.LEFT, SnakeOp.advance]
      (Snake.init.setDirection Direction.UP) (by decide) hops⟩

lemma portable_move_eq (s : Snake) : Portable.move s = s.move := by
  unfold Portable.move Snake.move Direction.translate
  cases hd : s.direction <;> rfl

lemma portable_sampleFoodPos_eq (width height : Int) (body : List Position) :
    ∀ (fuel : Nat) (r : Rng),
      Portable.sampleFoodPos width height body fuel r =
        sampleFoodPos width height body fuel r := by
  intro fuel
  induction fuel with
  | zero => intro r; rfl
  | succ n ih =>
    intro r
    simp only [Portable.sampleFoodPos, sampleFoodPos, Rng.next]
    split
    · exact ih _
    · rfl

lemma portable_generateFood_eq (f : Food) (width height : Int) (body : List Position)
    (fuel : Nat) (r : Rng) :
    Portable.generateFood f width height body fuel r =
      f.generateFood width height body fuel r := by
  unfold Portable.generateFood Food.generateFood
  rw [portable_sampleFoodPos_eq]

lemma portable_updateGameSpeed_eq (g : Game) :
    Portable.updateGameSpeed g = g.updateGameSpeed := rfl

lemma portable_isValidPosition_eq (b : GameBoard) (p : Position) :
    Portable.isValidPosition b p = b.isValidPosition p := rfl

lemma portable_checkSelfCollision_eq (s : Snake) :
    Portable.checkSelfCollision s = s.checkSelfCollision := rfl

/-- Claim C10: the core simulation functions of src/snakeCycle.cpp and of
the cross-platform variant src/unnamed/part_000 compute identical results
and state transitions on every input. -/
theorem versions_equivalent :
    (∀ (s : Snake) (d : Direction), Portable.setDirection s d = s.setDirection d) ∧
    (∀ s : Snake, Portable.move s = s.move) ∧
    (∀ s : Snake, Portable.checkSelfCollision s = s.checkSelfCollision) ∧
    (∀ s : Snake, Portable.resetSnake s = s.reset) ∧
    (∀ (f : Food) (width height : Int) (body : List Position) (fuel : Nat) (r : Rng),
      Portable.generateFood f width height body fuel r =
        f.generateFood width height body fuel r) ∧
    (∀ (b : GameBoard) (p : Position),
      Portable.isValidPosition b p = b.isValidPosition p) ∧
    (∀ g : Game, Portable.updateGameSpeed g = g.updateGameSpeed) ∧
    (∀ (g : Game) (fuel : Nat) (r : Rng), Portable.update g fuel r = g.update fuel r) := by
  refine ⟨fun s d => rfl, portable_move_eq, fun s => rfl, fun s => rfl,
    portable_generateFood_eq, fun b p => rfl, fun g => rfl, ?_⟩
  intro g fuel r
  unfold Portable.update Game.update
  simp only [portable_move_eq, portable_updateGameSpeed_eq, portable_isValidPosition_eq,
    portable_checkSelfCollision_eq, portable_generateFood_eq]
